import Mathlib

/-!
Verification development for the `wave-viewer` dispatcher
(`scripts/dispatcher_json_stream.py`).

The Python source is shallowly embedded:

* JSON values produced by `json.loads` are modelled by the inductive `Json`;
  `json.loads` itself is abstracted as a parameter `parse : String → Option Json`
  (`none` models `json.JSONDecodeError`).
* Python attribute errors (calling `.get` on a non-dict, `.strip()` on a
  truthy non-string) are modelled with `Except Unit`: `.error ()` is a raised
  exception, `.ok` a normal return.
* Python truthiness of optional strings and of JSON values is modelled
  explicitly (`pyTruthy`, `jsonTruthy`).
* The subprocess machinery of `stream_process` is modelled by the arrival
  interleaving of lines on the two output handles; `time.strftime` is
  abstracted as a function of the arrival index.
-/

namespace Dispatcher

/-- Model of a decoded JSON value (the result of `json.loads`).
JSON numbers are modelled as integers; no claim depends on numeric rendering. -/
inductive Json where
  | str (s : String)
  | num (n : Int)
  | bool (b : Bool)
  | null
  | arr (elems : List Json)
  | obj (fields : List (String × Json))

/-- First-match lookup in the field list of a JSON object (Python dicts have
unique keys, so first-match agrees with dict lookup on all representable
objects). -/
def jsonLookup : List (String × Json) → String → Option Json
  | [], _ => none
  | (k, v) :: rest, key => if k = key then some v else jsonLookup rest key

/-- Python truthiness of a JSON value. -/
def jsonTruthy : Json → Bool
  | .str s => s ≠ ""
  | .num n => n ≠ 0
  | .bool b => b
  | .null => false
  | .arr l => !l.isEmpty
  | .obj l => !l.isEmpty

/-- Python `==` between a JSON value and a string literal. -/
def jsonEqStr : Json → String → Bool
  | .str s, t => s = t
  | _, _ => false

/-- `d.get(key, default)`: `.error ()` models the `AttributeError` raised when
the receiver is not a dict. -/
def pyGet (j : Json) (key : String) (dflt : Json) : Except Unit Json :=
  match j with
  | .obj fields => .ok ((jsonLookup fields key).getD dflt)
  | _ => .error ()

mutual
/-- Python `repr` of a JSON value (used inside container rendering). -/
def pyRepr : Json → String
  | .str s => "\x27" ++ s ++ "\x27"
  | .num n => toString n
  | .bool b => if b then "True" else "False"
  | .null => "None"
  | .arr l => "[" ++ String.intercalate ", " (pyReprList l) ++ "]"
  | .obj l => "\x7b" ++ String.intercalate ", " (pyReprFields l) ++ "\x7d"

def pyReprList : List Json → List String
  | [] => []
  | x :: xs => pyRepr x :: pyReprList xs

def pyReprFields : List (String × Json) → List String
  | [] => []
  | (k, v) :: xs => ("\x27" ++ k ++ "\x27: " ++ pyRepr v) :: pyReprFields xs
end

/-- Python `str()` of a JSON value, as used by f-string interpolation. -/
def pyStr : Json → String
  | .str s => s
  | j => pyRepr j

/-- Python `str.strip()` on whitespace, implemented structurally (the model
of `.strip()` used throughout the renderer). -/
def pyStrip (s : String) : String :=
  String.mk (((s.data.dropWhile Char.isWhitespace).reverse.dropWhile
    Char.isWhitespace).reverse)

/-- `(item.get("text") or "").strip()`: empty string when the field is falsy,
the trimmed string when it is a truthy string, and a raised `AttributeError`
(`.error ()`) when it is truthy but not a string. -/
def textOrEmptyStripped (item : Json) : Except Unit String :=
  match pyGet item "text" .null with
  | .error e => .error e
  | .ok v =>
    if jsonTruthy v then
      match v with
      | .str s => .ok (pyStrip s)
      | _ => .error ()
    else
      .ok ""

/-- `format_event` from `dispatcher_json_stream.py` (lines 40-71): maps a
decoded payload to `(display_text, tag)`; `.error ()` models the
`AttributeError` raised when nested fields are not dicts. -/
def format_event (payload : Json) : Except Unit (String × String) :=
  match pyGet payload "type" (.str "unknown") with
  | .error e => .error e
  | .ok event_type =>
    if jsonEqStr event_type "item.started" then
      match pyGet payload "item" (.obj []) with
      | .error e => .error e
      | .ok item =>
        match pyGet item "type" (.str "unknown") with
        | .error e => .error e
        | .ok item_type =>
          match pyGet item "command" .null with
          | .error e => .error e
          | .ok cmd =>
            if jsonEqStr item_type "command_execution" && jsonTruthy cmd then
              .ok ("[command.start] " ++ pyStr cmd, "default")
            else
              .ok ("[item.start] " ++ pyStr item_type, "default")
    else if jsonEqStr event_type "item.completed" then
      match pyGet payload "item" (.obj []) with
      | .error e => .error e
      | .ok item =>
        match pyGet item "type" (.str "unknown") with
        | .error e => .error e
        | .ok item_type =>
          if jsonEqStr item_type "command_execution" then
            match pyGet item "exit_code" .null with
            | .error e => .error e
            | .ok exit_code =>
              .ok ("[command.done] exit=" ++ pyStr exit_code, "default")
          else if jsonEqStr item_type "reasoning" then
            match textOrEmptyStripped item with
            | .error e => .error e
            | .ok text =>
              if text ≠ "" then
                .ok ("[reasoning] " ++ text, "reasoning")
              else
                .ok ("[reasoning]", "reasoning")
          else if jsonEqStr item_type "agent_message" then
            match textOrEmptyStripped item with
            | .error e => .error e
            | .ok text =>
              if text ≠ "" then
                .ok ("[agent] " ++ text, "agent")
              else
                .ok ("[agent]", "agent")
          else
            .ok ("[item.done] " ++ pyStr item_type, "default")
    else if jsonEqStr event_type "turn.completed" then
      match pyGet payload "usage" (.obj []) with
      | .error e => .error e
      | .ok usage =>
        match pyGet usage "input_tokens" .null with
        | .error e => .error e
        | .ok input_tokens =>
          match pyGet usage "output_tokens" .null with
          | .error e => .error e
          | .ok output_tokens =>
            .ok ("[turn.done] input_tokens=" ++ pyStr input_tokens
                  ++ " output_tokens=" ++ pyStr output_tokens, "default")
    else
      .ok ("[event] " ++ pyStr event_type, "default")

/-- ANSI color constants from the source. -/
def ANSI_GREEN : String := "\x1b[32m"

def ANSI_BLUE : String := "\x1b[34m"

def ANSI_RESET : String := "\x1b[0m"

/-- `colorize` from the source (lines 74-79); the agent tag literal is `agent`. -/
def colorize (text : String) (tag : String) : String :=
  if tag = "agent" then ANSI_GREEN ++ text ++ ANSI_RESET
  else if tag = "reasoning" then ANSI_BLUE ++ text ++ ANSI_RESET
  else text

/-- `render_line` from the source (lines 82-97): trims the line, decodes it
(`parse` abstracts `json.loads`; `none` is a `JSONDecodeError`), formats the
event and extracts the agent-message text when the record is a completed
agent-message item. -/
def render_line (parse : String → Option Json) (line : String) :
    Except Unit (String × String × Option String) :=
  let stripped := pyStrip line
  if stripped = "" then .ok ("", "default", none)
  else
    match parse stripped with
    | none => .ok (stripped, "default", none)
    | some payload =>
      match format_event payload with
      | .error e => .error e
      | .ok ft =>
        match pyGet payload "type" .null with
        | .error e => .error e
        | .ok t =>
          if jsonEqStr t "item.completed" then
            match pyGet payload "item" (.obj []) with
            | .error e => .error e
            | .ok item =>
              match pyGet item "type" .null with
              | .error e => .error e
              | .ok it =>
                if jsonEqStr it "agent_message" then
                  match textOrEmptyStripped item with
                  | .error e => .error e
                  | .ok text => .ok (ft.1, ft.2, some text)
                else
                  .ok (ft.1, ft.2, none)
          else
            .ok (ft.1, ft.2, none)

/-- Record shape that the renderer treats as a completed agent-message item:
an object whose `type` is `item.completed` and whose `item` (an object) has
`type` equal to `agent_message`. -/
def isAgentMessageRecord (payload : Json) : Bool :=
  match payload with
  | .obj fields =>
    match (jsonLookup fields "type").getD .null with
    | .str t =>
      if t = "item.completed" then
        match (jsonLookup fields "item").getD (.obj []) with
        | .obj ifields =>
          match (jsonLookup ifields "type").getD .null with
          | .str it => it = "agent_message"
          | _ => false
        | _ => false
      else false
    | _ => false
  | _ => false

/-- The trimmed agent-message text of a record, when it is extractable
without raising: `some ""` when the `text` field is falsy, the trimmed string
when it is a truthy string, `none` when extraction would raise. -/
def agentTextOf (payload : Json) : Option String :=
  match payload with
  | .obj fields =>
    match (jsonLookup fields "item").getD (.obj []) with
    | .obj ifields =>
      let v := (jsonLookup ifields "text").getD .null
      if jsonTruthy v then
        match v with
        | .str s => some (pyStrip s)
        | _ => none
      else some ""
    | _ => none
  | _ => none

/-- Python truthiness of an optional string (`None` and `""` are falsy). -/
def pyTruthy : Option String → Bool
  | none => false
  | some s => s ≠ ""

/-- Python `x or default` for an optional string. -/
def pyOrStr (v : Option String) (dflt : String) : String :=
  match v with
  | some s => if s = "" then dflt else s
  | none => dflt

/-- The two output handles of the subprocess. -/
inductive Handle where
  | stdout
  | stderr
deriving DecidableEq

/-- One written output line (source lines 131-135): optional caller prefix,
timestamp, colorized rendered text, trailing newline. -/
def outputLine (pre : Option String) (tsv : String) (formatted tag : String) : String :=
  if pyTruthy pre then
    pre.getD "" ++ " [" ++ tsv ++ "] " ++ colorize formatted tag ++ "\n"
  else
    "[" ++ tsv ++ "] " ++ colorize formatted tag ++ "\n"

/-- The `if agent_text: last_agent_message = agent_text` update of the loop
(source lines 129-130): only a truthy (non-empty) extracted text overwrites. -/
def muxUpdate (agentText : Option String) (last : Option String) : Option String :=
  match agentText with
  | some s => if s ≠ "" then some s else last
  | none => last

/-- The multiplexing loop of `stream_process` (source lines 120-141) over the
arrival interleaving of lines across both handles.  `ts` abstracts
`time.strftime` as a function of the arrival index; the selector's
nondeterminism is captured by quantifying over the interleaving.  Returns the
stdout-sink writes, the stderr-sink writes and the final last-agent-message
accumulator; `.error ()` models an exception raised while rendering a line
(which aborts the whole loop in the source). -/
def muxLoop (parse : String → Option Json) (pre : Option String) (ts : Nat → String) :
    Nat → Option String → List (Handle × String) →
    Except Unit (List String × List String × Option String)
  | _, last, [] => .ok ([], [], last)
  | i, last, (h, line) :: rest =>
    match render_line parse line with
    | .error e => .error e
    | .ok (formatted, tag, agentText) =>
      if formatted = "" then muxLoop parse pre ts (i + 1) last rest
      else
        let out := outputLine pre (ts i) formatted tag
        match muxLoop parse pre ts (i + 1) (muxUpdate agentText last) rest with
        | .error e => .error e
        | .ok (os, es, l) =>
          match h with
          | .stdout => .ok (out :: os, es, l)
          | .stderr => .ok (os, out :: es, l)

/-- The value `stream_process` evaluates to: the normal path returns the pair
`(exit_code, last_agent_message)`, while the `FileNotFoundError` path executes
`return 127`, a bare int that is not a pair. -/
inductive StreamResult where
  | tuple (code : Int) (last : Option String)
  | bare (code : Int)
deriving DecidableEq

/-- `stream_process` (source lines 100-143).  `launchOk` is whether
`subprocess.Popen` succeeds (false models `FileNotFoundError`); `exitCode` is
the waited-on process exit status; `arrivals` is the interleaving of lines
arriving on the two handles. -/
def stream_process (launchOk : Bool) (parse : String → Option Json)
    (pre : Option String) (ts : Nat → String) (arrivals : List (Handle × String))
    (exitCode : Int) : Except Unit StreamResult :=
  if launchOk then
    match muxLoop parse pre ts 0 none arrivals with
    | .error e => .error e
    | .ok (_, _, last) => .ok (.tuple exitCode last)
  else
    .ok (.bare 127)

/-- Tuple unpacking `exit_code, summary = run_codex(...)` as performed by the
scheduler (source lines 225-229): unpacking a bare int raises `TypeError`. -/
def unpackPair : StreamResult → Except Unit (Int × Option String)
  | .tuple c l => .ok (c, l)
  | .bare _ => .error ()

/-- The rendered output a single arrival contributes to its own handle's sink
(`none` when the line is skipped or rendering raises). -/
def renderOut (parse : String → Option Json) (pre : Option String)
    (ts : Nat → String) (i : Nat) (line : String) : Option String :=
  match render_line parse line with
  | .ok (formatted, tag, _) =>
    if formatted = "" then none else some (outputLine pre (ts i) formatted tag)
  | .error _ => none

/-- The last element of a list, or a default when the list is empty. -/
def lastOr {α : Type} : List α → Option α → Option α
  | [], d => d
  | x :: xs, _ => lastOr xs (some x)

/-- The extracted agent text of one arrival exactly when the source's loop
would overwrite `last_agent_message` with it (line written and text
non-empty). -/
def extractNonEmpty (parse : String → Option Json) (p : Handle × String) :
    Option String :=
  match render_line parse p.2 with
  | .ok (formatted, _, some s) => if formatted ≠ "" ∧ s ≠ "" then some s else none
  | _ => none

/-- Modelled from the spec's words for C4: the extracted text of every
completed agent-message event, including an empty one. -/
def extractSummary (parse : String → Option Json) (p : Handle × String) :
    Option String :=
  match render_line parse p.2 with
  | .ok (_, _, some s) => some s
  | _ => none

/-- Spec-side value for C4: the extracted text of the last completed
agent-message event across both handles, or `none` if none occurred. -/
def specLastAgent (parse : String → Option Json)
    (arrivals : List (Handle × String)) : Option String :=
  lastOr (arrivals.filterMap (extractSummary parse)) none

/-- Model of a value in the parsed `tasks_state.yaml` mapping. -/
inductive Yaml where
  | str (s : String)
  | dict (entries : List (String × Yaml))
  | other

/-- First-match lookup in a YAML mapping (dict keys are unique). -/
def yamlLookup : List (String × Yaml) → String → Option Yaml
  | [], _ => none
  | (k, v) :: rest, key => if k = key then some v else yamlLookup rest key

/-- `task_ids_from_state` (source lines 154-161): every top-level key in
declared order, skipping the reserved `schema_version` marker. -/
def task_ids_from_state : List (String × Yaml) → List String
  | [] => []
  | (k, _) :: rest =>
    if k = "schema_version" then task_ids_from_state rest
    else k :: task_ids_from_state rest

/-- `task_status` (source lines 164-172): `none` for a missing or non-dict
entry or a non-string `status` field. -/
def task_status (data : List (String × Yaml)) (taskId : String) : Option String :=
  match yamlLookup data taskId with
  | some (.dict entry) =>
    match yamlLookup entry "status" with
    | some (.str s) => some s
    | _ => none
  | _ => none

/-- The `--all` enumeration in `main` (source lines 330-337): ids from
`task_ids_from_state`, keeping those whose status is not `done`. -/
def pending_task_ids (data : List (String × Yaml)) : List String :=
  (task_ids_from_state data).filter (fun t => task_status data t ≠ some "done")

/-- The fixed first part of the executor prompt (source lines 177-180). -/
def executorBase (repoPath taskId : String) : String :=
  "You are the executor agent. Read and follow your role definition "
    ++ "\x27agents/roles/executor.md\x27. Work on task " ++ taskId
    ++ ". Repo path: " ++ repoPath ++ "."

/-- `build_executor_prompt` (source lines 175-183): the reviewer-feedback
block is appended exactly when `feedback` is truthy. -/
def build_executor_prompt (repoPath taskId : String) (feedback : Option String) :
    String :=
  if pyTruthy feedback then
    executorBase repoPath taskId ++ "\nReviewer feedback:\n" ++ feedback.getD ""
  else
    executorBase repoPath taskId

/-- `build_reviewer_prompt` (source lines 186-194). -/
def build_reviewer_prompt (repoPath taskId : String) (summary : Option String) :
    String :=
  "You are the reviewer agent. Read and follow your role definition "
    ++ "\x27agents/roles/reviewer.md\x27. Review task " ++ taskId
    ++ ". Repo path: " ++ repoPath ++ ".\n"
    ++ "Here are the summaries from the executor agent:\n"
    ++ pyOrStr summary "No executor summary captured."

/-- Environment of the scheduler's external effects: `codexRes n` is the
`(exit_code, summary)` pair of the n-th `run_codex` invocation (globally
counted), and `statusRes n` the result of the n-th `task_status` read of the
externally mutated state file. -/
structure Env where
  codexRes : Nat → Int × Option String
  statusRes : Nat → Option String

/-- Observable external actions of one scheduler run, in program order. -/
inductive Action where
  | execRound (taskId : String) (feedback : Option String) (prompt : String)
  | revRound (taskId : String) (summary : Option String) (prompt : String)
  | readStatus (taskId : String) (result : Option String)
  | notify (role : String) (taskId : String) (status : Option String)
      (summary : Option String)
deriving DecidableEq

/-- The task a trace action concerns. -/
def actTask : Action → String
  | .execRound t _ _ => t
  | .revRound t _ _ => t
  | .readStatus t _ => t
  | .notify _ t _ _ => t

/-- Whether an action is an executor invocation. -/
def isExec : Action → Bool
  | .execRound _ _ _ => true
  | _ => false

/-- Whether an action is a reviewer invocation. -/
def isRev : Action → Bool
  | .revRound _ _ _ => true
  | _ => false

/-- Number of executor invocations in a trace. -/
def countExec (l : List Action) : Nat := l.countP isExec

/-- Result of the per-task round loop: `res = some c` is an abort with exit
code `c`, `res = none` a normally completed task; `cN`/`sN` are the updated
global invocation and status-read counters; `trace` the actions performed. -/
structure RoundsResult where
  res : Option Int
  cN : Nat
  sN : Nat
  trace : List Action
deriving DecidableEq

/-- The per-task `while rounds < max_rounds` loop of `run_scheduler` (source
lines 221-275).  The fuel argument is `max_rounds - rounds`: the loop guard
holds iff it is positive, and the `rounds >= max_rounds` check after the
increment in the `request_changes` branch is `fuel = 0` after one step. -/
def runRounds (repo : String) (env : Env) (taskId : String) :
    Nat → Option String → Nat → Nat → RoundsResult
  | 0, _, cN, sN => ⟨none, cN, sN, []⟩
  | fuel + 1, feedback, cN, sN =>
    let eprompt := build_executor_prompt repo taskId feedback
    let r := env.codexRes cN
    let a1 : List Action := [.execRound taskId feedback eprompt]
    if r.1 ≠ 0 then ⟨some r.1, cN + 1, sN, a1⟩
    else
      let status := env.statusRes sN
      let a2 := a1 ++ [.readStatus taskId status, .notify "executor" taskId status r.2]
      if status ≠ some "ready_for_review" then ⟨some 1, cN + 1, sN + 1, a2⟩
      else
        let rprompt := build_reviewer_prompt repo taskId r.2
        let r2 := env.codexRes (cN + 1)
        let a3 := a2 ++ [.revRound taskId r.2 rprompt]
        if r2.1 ≠ 0 then ⟨some r2.1, cN + 2, sN + 1, a3⟩
        else
          let status2 := env.statusRes (sN + 1)
          let a4 := a3 ++ [.readStatus taskId status2,
            .notify "reviewer" taskId status2 r2.2]
          if status2 = some "done" then ⟨none, cN + 2, sN + 2, a4⟩
          else if status2 = some "request_changes" then
            if fuel = 0 then ⟨some 1, cN + 2, sN + 2, a4⟩
            else
              let fb := some (pyOrStr r2.2 "No reviewer summary captured.")
              let rr := runRounds repo env taskId fuel fb (cN + 2) (sN + 2)
              ⟨rr.res, rr.cN, rr.sN, a4 ++ rr.trace⟩
          else ⟨some 1, cN + 2, sN + 2, a4⟩

/-- Result of a whole scheduler run. -/
structure SchedResult where
  code : Int
  cN : Nat
  sN : Nat
  trace : List Action
deriving DecidableEq

/-- The task iteration of `run_scheduler` (source lines 219-276): tasks in
order, aborting the whole run on the first per-task abort, returning 0 when
every task completes. -/
def schedGo (repo : String) (env : Env) (mr : Int) :
    Nat → Nat → List String → SchedResult
  | cN, sN, [] => ⟨0, cN, sN, []⟩
  | cN, sN, t :: rest =>
    let r := runRounds repo env t mr.toNat none cN sN
    match r.res with
    | some c => ⟨c, r.cN, r.sN, r.trace⟩
    | none =>
      let s := schedGo repo env mr r.cN r.sN rest
      ⟨s.code, s.cN, s.sN, r.trace ++ s.trace⟩

/-- `run_scheduler` (source lines 214-276). -/
def run_scheduler (repo : String) (env : Env) (taskIds : List String)
    (mr : Int) : SchedResult :=
  schedGo repo env mr 0 0 taskIds

/-- Whether every task of the list completes without abort (statuses flip to
`done` within budget), threading the global counters. -/
def tasksAllComplete (repo : String) (env : Env) (mr : Int) :
    Nat → Nat → List String → Bool
  | _, _, [] => true
  | cN, sN, t :: rest =>
    let r := runRounds repo env t mr.toNat none cN sN
    match r.res with
    | none => tasksAllComplete repo env mr r.cN r.sN rest
    | some _ => false

/-- Scan state for the feedback invariant: the most recent status read
(task, result) and the tasks that have already had an executor round. -/
def FbState : Type := Option (String × Option String) × List String

/-- Scan step over one action. -/
def fbStep (s : FbState) (a : Action) : FbState :=
  match a with
  | .readStatus t st => (some (t, st), s.2)
  | .execRound t _ _ => (s.1, t :: s.2)
  | _ => s

/-- Local check at one action: an executor round with truthy feedback must be
immediately preceded by a same-task status read of `request_changes`, and a
task's first executor round carries no feedback. -/
def fbOk (s : FbState) (a : Action) : Bool :=
  match a with
  | .execRound t fb _ =>
    (!pyTruthy fb || decide (s.1 = some (t, some "request_changes")))
      && (decide (t ∈ s.2) || decide (fb = none))
  | _ => true

/-- The feedback invariant over a whole trace. -/
def fbInv (s : FbState) : List Action → Bool
  | [] => true
  | a :: rest => fbOk s a && fbInv (fbStep s a) rest

/-- Concrete payload: completed agent message with text `hello`. -/
def payloadA : Json :=
  .obj [("type", .str "item.completed"),
        ("item", .obj [("type", .str "agent_message"), ("text", .str "hello")])]

/-- Concrete payload: completed agent message with empty text. -/
def payloadB : Json :=
  .obj [("type", .str "item.completed"),
        ("item", .obj [("type", .str "agent_message"), ("text", .str "")])]

/-- Concrete decoder for the mux examples: line `A` is an agent message with
text `hello`, line `B` an agent message with empty text. -/
def parseAB : String → Option Json :=
  fun s => if s = "A" then some payloadA else if s = "B" then some payloadB else none

/-- Concrete decoder mapping the line `[1]` to the JSON array `[1]` (a valid
JSON document that is not an object), as `json.loads` does. -/
def parseArr : String → Option Json :=
  fun s => if s = "[1]" then some (.arr [.num 1]) else none

/-- Concrete arrival interleaving: two stdout lines. -/
def arrAB : List (Handle × String) := [(.stdout, "A"), (.stdout, "B")]

/-- Concrete timestamp function. -/
def tsC : Nat → String := fun _ => "TS"

/-- The stdout-sink writes of the mux loop on `arrAB`. -/
def muxOutAB : List String :=
  ["[TS] " ++ ANSI_GREEN ++ "[agent] hello" ++ ANSI_RESET ++ "\n",
   "[TS] " ++ ANSI_GREEN ++ "[agent]" ++ ANSI_RESET ++ "\n"]

/-- Concrete environment: every invocation exits 0 with summary `S`; statuses
alternate `ready_for_review` (after executor) and `request_changes` (after
reviewer). -/
def envRC : Env :=
  ⟨fun _ => (0, some "S"),
   fun n => if n % 2 = 0 then some "ready_for_review" else some "request_changes"⟩

/-- Concrete environment: every invocation exits 0; every status read returns
`blocked`. -/
def envBlocked : Env := ⟨fun _ => (0, some "S"), fun _ => some "blocked"⟩

/-- Concrete registry: marker key, a done task, a pending task, a malformed
entry. -/
def dataReg : List (String × Yaml) :=
  [("schema_version", .other),
   ("T-001", .dict [("status", .str "done")]),
   ("T-002", .dict [("status", .str "in_progress")]),
   ("T-003", .str "oops")]

/-- Helper: the whole scheduler is a no-op when the round budget is exhausted
from the start. -/
theorem schedGo_fuel_zero (repo : String) (env : Env) (mr : Int) (h : mr.toNat = 0) :
    ∀ ids cN sN, schedGo repo env mr cN sN ids = ⟨0, cN, sN, []⟩ := by
  intro ids
  induction ids with
  | nil => intro cN sN; rfl
  | cons t rest ih =>
    intro cN sN
    simp only [schedGo, h, runRounds]
    rw [ih]
    simp

/-- C1: if the external binary cannot be started, `stream_process` executes
`return 127`, a bare int that is not the contract pair
`(exit_code, last_agent_message_or_none)`; unpacking it as a pair, as the
scheduler does, raises instead of returning normally. -/
theorem C1_missing_binary_returns_bare_int :
    ∀ (parse : String → Option Json) (pre : Option String) (ts : Nat → String)
      (arrivals : List (Handle × String)) (exitCode : Int),
      stream_process false parse pre ts arrivals exitCode = .ok (.bare 127)
    ∧ (∀ c l, (StreamResult.bare 127) ≠ StreamResult.tuple c l)
    ∧ unpackPair (.bare 127) = .error () := by
  intro parse pre ts arrivals exitCode
  refine ⟨rfl, ?_, rfl⟩
  intro c l h
  cases h

/-- C10: with a zero or negative per-task round cap, the scheduler returns 0
for any (in particular any non-empty) task list without performing a single
external action. -/
theorem C10_nonpositive_budget_is_silent_success :
    ∀ (repo : String) (env : Env) (taskIds : List String) (mr : Int),
      taskIds ≠ [] → mr ≤ 0 →
      (run_scheduler repo env taskIds mr).code = 0
    ∧ (run_scheduler repo env taskIds mr).trace = [] := by
  intro repo env taskIds mr _ hmr
  have h0 : mr.toNat = 0 := by omega
  rw [run_scheduler, schedGo_fuel_zero repo env mr h0]
  exact ⟨rfl, rfl⟩

/-- Witness for C10 at a concrete non-empty task list and budget 0. -/
theorem C10_witness : (run_scheduler "/repo" envRC ["T-001"] 0).code = 0 :=
  (C10_nonpositive_budget_is_silent_success "/repo" envRC ["T-001"] 0
    (by decide) (by decide)).1

/-- Helper: `task_ids_from_state` is the key list filtered of the marker. -/
theorem task_ids_from_state_eq (data : List (String × Yaml)) :
    task_ids_from_state data =
      (data.map Prod.fst).filter (fun k => k ≠ "schema_version") := by
  induction data with
  | nil => rfl
  | cons kv rest ih =>
    obtain ⟨k, v⟩ := kv
    by_cases hk : k = "schema_version" <;>
      simp [task_ids_from_state, hk, ih]

/-- C7: in all-pending mode the scheduled ids are exactly the registry keys
that are not the `schema_version` marker and whose status is not `done`
(malformed or unknown statuses read as `none` and are therefore kept), as a
sublist of the keys in declared order. -/
theorem C7_all_pending_enumeration :
    ∀ data : List (String × Yaml),
      (∀ t, t ∈ pending_task_ids data ↔
          t ∈ data.map Prod.fst ∧ t ≠ "schema_version"
            ∧ task_status data t ≠ some "done")
    ∧ (pending_task_ids data).Sublist (data.map Prod.fst)
    ∧ (∀ t, t ∈ data.map Prod.fst → t ≠ "schema_version" →
        task_status data t = none → t ∈ pending_task_ids data) := by
  intro data
  have he := task_ids_from_state_eq data
  have hmem : ∀ t, t ∈ pending_task_ids data ↔
      t ∈ data.map Prod.fst ∧ t ≠ "schema_version"
        ∧ task_status data t ≠ some "done" := by
    intro t
    rw [pending_task_ids, he]
    simp [List.mem_filter, and_assoc]
    tauto
  refine ⟨hmem, ?_, ?_⟩
  · rw [pending_task_ids, he]
    exact (List.filter_sublist _).trans (List.filter_sublist _)
  · intro t h1 h2 h3
    exact (hmem t).mpr ⟨h1, h2, by simp [h3]⟩

/-- Witness for C7: in the concrete registry, the malformed task `T-003`
is scheduled. -/
theorem C7_witness : "T-003" ∈ pending_task_ids dataReg :=
  ((C7_all_pending_enumeration dataReg).1 "T-003").mpr
    ⟨by decide, by decide, by decide⟩

/-- C5: whenever the status read right after an executor round is anything
other than `ready_for_review`, that round aborts with exit code 1 after the
executor invocation, the status read and the notification — with no reviewer
invocation — and a run reaching this state exits with code 1 having invoked
no reviewer for any task. -/
theorem C5_bad_status_after_executor_aborts :
    ∀ (repo : String) (env : Env) (t : String) (rest : List String)
      (cN sN : Nat) (mr : Int),
      (env.codexRes cN).1 = 0 →
      env.statusRes sN ≠ some "ready_for_review" →
      (∀ fuel fb, runRounds repo env t (fuel + 1) fb cN sN =
        ⟨some 1, cN + 1, sN + 1,
          [.execRound t fb (build_executor_prompt repo t fb),
           .readStatus t (env.statusRes sN),
           .notify "executor" t (env.statusRes sN) (env.codexRes cN).2]⟩)
    ∧ (1 ≤ mr →
        (schedGo repo env mr cN sN (t :: rest)).code = 1
      ∧ ∀ a ∈ (schedGo repo env mr cN sN (t :: rest)).trace, isRev a = false) := by
  intro repo env t rest cN sN mr h1 h2
  have ha : ∀ fuel fb, runRounds repo env t (fuel + 1) fb cN sN =
      ⟨some 1, cN + 1, sN + 1,
        [.execRound t fb (build_executor_prompt repo t fb),
         .readStatus t (env.statusRes sN),
         .notify "executor" t (env.statusRes sN) (env.codexRes cN).2]⟩ := by
    intro fuel fb
    simp [runRounds, h1, h2]
  refine ⟨ha, ?_⟩
  intro hmr
  obtain ⟨k, hk⟩ : ∃ k, mr.toNat = k + 1 := ⟨mr.toNat - 1, by omega⟩
  have hs : schedGo repo env mr cN sN (t :: rest) =
      ⟨1, cN + 1, sN + 1,
        [.execRound t none (build_executor_prompt repo t none),
         .readStatus t (env.statusRes sN),
         .notify "executor" t (env.statusRes sN) (env.codexRes cN).2]⟩ := by
    simp [schedGo, hk, ha]
  rw [hs]
  refine ⟨rfl, ?_⟩
  intro a haMem
  fin_cases haMem <;> rfl

/-- Witness for C5 at a concrete environment whose status reads are
`blocked`. -/
theorem C5_witness : (schedGo "/repo" envBlocked 3 0 0 ["T-001", "T-002"]).code = 1 :=
  ((C5_bad_status_after_executor_aborts "/repo" envBlocked "T-001" ["T-002"] 0 0 3
    rfl (by decide)).2 (by decide)).1

/-- Helper: in an environment where every invocation exits 0, every
post-executor status is `ready_for_review` and every post-reviewer status is
`request_changes`, the round loop consumes its whole budget, aborts with exit
code 1 and performs exactly `fuel` executor invocations. -/
theorem runRounds_all_request_changes (repo : String) (env : Env) (t : String)
    (hc : ∀ n, (env.codexRes n).1 = 0)
    (hs : ∀ n, env.statusRes n =
      if n % 2 = 0 then some "ready_for_review" else some "request_changes") :
    ∀ fuel, 1 ≤ fuel → ∀ fb cN sN, sN % 2 = 0 →
      (runRounds repo env t fuel fb cN sN).res = some 1
    ∧ countExec (runRounds repo env t fuel fb cN sN).trace = fuel := by
  intro fuel
  induction fuel with
  | zero => omega
  | succ f ih =>
    intro _ fb cN sN hsn
    have h1 : env.statusRes sN = some "ready_for_review" := by
      rw [hs sN, if_pos hsn]
    have h2 : env.statusRes (sN + 1) = some "request_changes" := by
      rw [hs (sN + 1), if_neg (by omega)]
    by_cases hf : f = 0
    · subst hf
      simp [runRounds, hc, h1, h2, countExec, List.countP_cons, isExec]
    · have hrec := ih (by omega)
        (some (pyOrStr (env.codexRes (cN + 1)).2 "No reviewer summary captured."))
        (cN + 2) (sN + 2) (by omega)
      simp only [runRounds, hc, h1, h2] at hrec ⊢
      simp [hf, hrec.1, countExec, List.countP_append, List.countP_cons, isExec,
        countExec] at hrec ⊢
      omega

/-- C3: with a positive round cap, a task whose reviewer outcome is
`request_changes` every round makes the run abort with exit code 1 after
exactly `max_rounds` executor invocations (no further executor round is
started). -/
theorem C3_round_budget_exhaustion_aborts :
    ∀ (repo : String) (env : Env) (t : String) (mr : Int),
      1 ≤ mr →
      (∀ n, (env.codexRes n).1 = 0) →
      (∀ n, env.statusRes n =
        if n % 2 = 0 then some "ready_for_review" else some "request_changes") →
      (run_scheduler repo env [t] mr).code = 1
    ∧ countExec (run_scheduler repo env [t] mr).trace = mr.toNat := by
  intro repo env t mr hmr hc hs
  obtain ⟨hres, hcount⟩ := runRounds_all_request_changes repo env t hc hs
    mr.toNat (by omega) none 0 0 (by omega)
  constructor
  · simp [run_scheduler, schedGo, hres]
  · simp [run_scheduler, schedGo, hres, hcount]

/-- Witness for C3 at budget 3: abort with code 1 after exactly 3 executor
invocations. -/
theorem C3_witness :
    (run_scheduler "/repo" envRC ["T-001"] 3).code = 1
  ∧ countExec (run_scheduler "/repo" envRC ["T-001"] 3).trace = (3 : Int).toNat :=
  C3_round_budget_exhaustion_aborts "/repo" envRC "T-001" 3
    (by decide) (fun _ => rfl) (fun _ => rfl)

/-- Helper: every action performed by the per-task round loop concerns that
task. -/
theorem runRounds_trace_task (repo : String) (env : Env) (t : String) :
    ∀ fuel fb cN sN, ∀ a ∈ (runRounds repo env t fuel fb cN sN).trace,
      actTask a = t := by
  intro fuel
  induction fuel with
  | zero => intro fb cN sN a ha; simp [runRounds] at ha
  | succ f ih =>
    intro fb cN sN
    by_cases h1 : (env.codexRes cN).1 ≠ 0
    · simp [runRounds, h1, actTask]
    · by_cases h2 : env.statusRes sN ≠ some "ready_for_review"
      · simp [runRounds, h1, h2, actTask]
      · by_cases h3 : (env.codexRes (cN + 1)).1 ≠ 0
        · simp [runRounds, h1, h2, h3, actTask]
        · by_cases h4 : env.statusRes (sN + 1) = some "done"
          · simp [runRounds, h1, h2, h3, h4, actTask]
          · by_cases h5 : env.statusRes (sN + 1) = some "request_changes"
            · by_cases h6 : f = 0
              · simp [runRounds, h1, h2, h3, h4, h5, h6, actTask]
              · intro a ha
                simp [runRounds, h1, h2, h3, h4, h5, h6] at ha
                rcases ha with rfl | rfl | rfl | rfl | rfl | rfl | hrec
                · rfl
                · rfl
                · rfl
                · rfl
                · rfl
                · rfl
                · exact ih _ _ _ a hrec
            · simp [runRounds, h1, h2, h3, h4, h5, actTask]

/-- Helper: if every task completes, the scheduler returns 0. -/
theorem schedGo_all_complete (repo : String) (env : Env) (mr : Int) :
    ∀ ids cN sN, tasksAllComplete repo env mr cN sN ids = true →
      (schedGo repo env mr cN sN ids).code = 0 := by
  intro ids
  induction ids with
  | nil => intro cN sN _; rfl
  | cons t rest ih =>
    intro cN sN h
    simp only [tasksAllComplete] at h
    cases hres : (runRounds repo env t mr.toNat none cN sN).res with
    | some c => rw [hres] at h; simp at h
    | none =>
      rw [hres] at h
      simp only [schedGo, hres]
      exact ih _ _ h

/-- Helper: a run over `pre ++ ids` where every task of `pre` completes is
the run over `pre` followed by the run over `ids` from the updated
counters. -/
theorem schedGo_append_complete (repo : String) (env : Env) (mr : Int) :
    ∀ pre ids cN sN, tasksAllComplete repo env mr cN sN pre = true →
      (schedGo repo env mr cN sN (pre ++ ids)).code =
        (schedGo repo env mr (schedGo repo env mr cN sN pre).cN
          (schedGo repo env mr cN sN pre).sN ids).code
    ∧ (schedGo repo env mr cN sN (pre ++ ids)).trace =
        (schedGo repo env mr cN sN pre).trace ++
          (schedGo repo env mr (schedGo repo env mr cN sN pre).cN
            (schedGo repo env mr cN sN pre).sN ids).trace := by
  intro pre
  induction pre with
  | nil => intro ids cN sN _; simp [schedGo]
  | cons t rest ih =>
    intro ids cN sN h
    simp only [tasksAllComplete] at h
    cases hres : (runRounds repo env t mr.toNat none cN sN).res with
    | some c => rw [hres] at h; simp at h
    | none =>
      rw [hres] at h
      obtain ⟨ihc, iht⟩ := ih ids (runRounds repo env t mr.toNat none cN sN).cN
        (runRounds repo env t mr.toNat none cN sN).sN h
      constructor
      · simpa [List.cons_append, schedGo, hres] using ihc
      · simp only [List.cons_append, schedGo, hres]
        simp [iht]

/-- C6: once a task aborts, the scheduler stops at that task — the overall
exit code is that task's aborting code and the whole trace is the completed
prefix's trace followed by the aborting task's own actions (so no round of a
later task is ever started) — and when every task completes the overall code
is 0.  The counters `cN`, `sN` range over all reachable scheduler states, so
the aborting task may sit anywhere in the list. -/
theorem C6_abort_stops_run :
    ∀ (repo : String) (env : Env) (mr : Int) (cN sN : Nat),
      (∀ t rest c, (runRounds repo env t mr.toNat none cN sN).res = some c →
         (schedGo repo env mr cN sN (t :: rest)).code = c
       ∧ (schedGo repo env mr cN sN (t :: rest)).trace =
           (runRounds repo env t mr.toNat none cN sN).trace
       ∧ ∀ a ∈ (runRounds repo env t mr.toNat none cN sN).trace, actTask a = t)
    ∧ (∀ ids, tasksAllComplete repo env mr cN sN ids = true →
         (schedGo repo env mr cN sN ids).code = 0)
    ∧ (∀ pre ids, tasksAllComplete repo env mr cN sN pre = true →
         (schedGo repo env mr cN sN (pre ++ ids)).code =
           (schedGo repo env mr (schedGo repo env mr cN sN pre).cN
             (schedGo repo env mr cN sN pre).sN ids).code
       ∧ (schedGo repo env mr cN sN (pre ++ ids)).trace =
           (schedGo repo env mr cN sN pre).trace ++
             (schedGo repo env mr (schedGo repo env mr cN sN pre).cN
               (schedGo repo env mr cN sN pre).sN ids).trace) := by
  intro repo env mr cN sN
  refine ⟨?_, fun ids h => schedGo_all_complete repo env mr ids cN sN h,
    fun pre ids h => schedGo_append_complete repo env mr pre ids cN sN h⟩
  intro t rest c hres
  refine ⟨?_, ?_, fun a ha => runRounds_trace_task repo env t _ _ _ _ a ha⟩
  · simp [schedGo, hres]
  · simp [schedGo, hres]

/-- Witness for C6: with alternating `ready_for_review`/`request_changes`
statuses the first task aborts with code 1 and the second is never
started. -/
theorem C6_witness : (schedGo "/repo" envRC 3 0 0 ["T-001", "T-002"]).code = 1 :=
  ((C6_abort_stops_run "/repo" envRC 3 0 0).1 "T-001" ["T-002"] 1 rfl).1

/-- Helper: the feedback invariant splits over trace concatenation. -/
theorem fbInv_append : ∀ (xs ys : List Action) (s : FbState),
    fbInv s (xs ++ ys) = (fbInv s xs && fbInv (xs.foldl fbStep s) ys) := by
  intro xs
  induction xs with
  | nil => intro ys s; simp [fbInv]
  | cons a rest ih =>
    intro ys s
    simp [fbInv, ih, Bool.and_assoc]

/-- Helper: the round loop preserves the feedback invariant, provided its
incoming feedback is either absent or justified by a same-task
`request_changes` status read already recorded in the scan state. -/
theorem runRounds_fbInv (repo : String) (env : Env) (t : String) :
    ∀ fuel fb cN sN (s : FbState),
      (fb = none ∨ (s.1 = some (t, some "request_changes") ∧ t ∈ s.2)) →
      fbInv s (runRounds repo env t fuel fb cN sN).trace = true := by
  intro fuel
  induction fuel with
  | zero => intro fb cN sN s _; simp [runRounds, fbInv]
  | succ f ih =>
    intro fb cN sN s hfb
    have hfb2 : (pyTruthy fb = false ∨ s.1 = some (t, some "request_changes"))
        ∧ (t ∈ s.2 ∨ fb = none) := by
      rcases hfb with rfl | ⟨hs1, hs2⟩
      · exact ⟨Or.inl rfl, Or.inr rfl⟩
      · exact ⟨Or.inr hs1, Or.inl hs2⟩
    by_cases h1 : (env.codexRes cN).1 ≠ 0
    · simp [runRounds, h1, fbInv, fbOk, fbStep]
      exact hfb2
    · by_cases h2 : env.statusRes sN ≠ some "ready_for_review"
      · simp [runRounds, h1, h2, fbInv, fbOk, fbStep]
        exact hfb2
      · by_cases h3 : (env.codexRes (cN + 1)).1 ≠ 0
        · simp [runRounds, h1, h2, h3, fbInv, fbOk, fbStep]
          exact hfb2
        · by_cases h4 : env.statusRes (sN + 1) = some "done"
          · simp [runRounds, h1, h2, h3, h4, fbInv, fbOk, fbStep]
            exact hfb2
          · by_cases h5 : env.statusRes (sN + 1) = some "request_changes"
            · by_cases h6 : f = 0
              · simp [runRounds, h1, h2, h3, h4, h5, h6, fbInv, fbOk, fbStep]
                exact hfb2
              · simp [runRounds, h1, h2, h3, h4, h5, h6, fbInv, fbOk, fbStep]
                refine ⟨hfb2, ?_⟩
                exact ih _ _ _ _ (Or.inr ⟨rfl, by simp⟩)
            · simp [runRounds, h1, h2, h3, h4, h5, fbInv, fbOk, fbStep]
              exact hfb2

/-- Helper: every scheduler trace satisfies the feedback invariant from any
scan state (each task's loop is entered with no feedback). -/
theorem schedGo_fbInv (repo : String) (env : Env) (mr : Int) :
    ∀ ids cN sN (s : FbState),
      fbInv s (schedGo repo env mr cN sN ids).trace = true := by
  intro ids
  induction ids with
  | nil => intro cN sN s; simp [schedGo, fbInv]
  | cons t rest ih =>
    intro cN sN s
    cases hres : (runRounds repo env t mr.toNat none cN sN).res with
    | some c =>
      simp only [schedGo, hres]
      exact runRounds_fbInv repo env t _ _ _ _ s (Or.inl rfl)
    | none =>
      simp only [schedGo, hres]
      rw [fbInv_append]
      simp [runRounds_fbInv repo env t _ _ _ _ s (Or.inl rfl), ih]

/-- C9: in every scheduler run, an executor round carries non-empty feedback
only when the most recent status read was a same-task `request_changes` (the
post-reviewer read of the preceding round), a task's first executor round
carries no feedback, and the executor prompt contains the reviewer-feedback
block exactly when the feedback is non-empty. -/
theorem C9_feedback_only_after_request_changes :
    ∀ (repo : String) (env : Env) (taskIds : List String) (mr : Int),
      fbInv ((none, []) : FbState) (run_scheduler repo env taskIds mr).trace = true
    ∧ (∀ t fb, (∃ s, build_executor_prompt repo t fb =
        executorBase repo t ++ "\nReviewer feedback:\n" ++ s) ↔ pyTruthy fb = true) := by
  intro repo env taskIds mr
  constructor
  · exact schedGo_fbInv repo env mr taskIds 0 0 _
  · intro t fb
    constructor
    · rintro ⟨s, hs⟩
      by_cases hpy : pyTruthy fb = true
      · exact hpy
      · rw [build_executor_prompt, if_neg hpy] at hs
        have hlen := congrArg String.length hs
        rw [String.length_append, String.length_append] at hlen
        have hb : ("\nReviewer feedback:\n").length = 20 := rfl
        omega
    · intro hpy
      exact ⟨fb.getD "", by simp [build_executor_prompt, hpy]⟩

/-- Witness for C9 at a concrete looping run. -/
theorem C9_witness :
    fbInv ((none, []) : FbState) (run_scheduler "/repo" envRC ["T-001"] 3).trace
      = true :=
  (C9_feedback_only_after_request_changes "/repo" envRC ["T-001"] 3).1

/-- C8: for every interleaving of arrivals on the two handles, each handle's
sink receives exactly the rendered lines of that handle's own arrival
subsequence, in arrival order — lines are never reordered within a handle
(cross-handle order is whatever the interleaving was). -/
theorem C8_per_handle_order_preserved (parse : String → Option Json)
    (pre : Option String) (ts : Nat → String) :
    ∀ (arrivals : List (Handle × String)) (i : Nat) (last : Option String)
      (os es : List String) (l : Option String),
      muxLoop parse pre ts i last arrivals = .ok (os, es, l) →
      os = ((arrivals.enumFrom i).filter (fun p => p.2.1 = Handle.stdout)).filterMap
            (fun p => renderOut parse pre ts p.1 p.2.2)
    ∧ es = ((arrivals.enumFrom i).filter (fun p => p.2.1 = Handle.stderr)).filterMap
            (fun p => renderOut parse pre ts p.1 p.2.2) := by
  intro arrivals
  induction arrivals with
  | nil =>
    intro i last os es l hm
    simp only [muxLoop, Except.ok.injEq, Prod.mk.injEq] at hm
    obtain ⟨h1, h2, h3⟩ := hm
    subst h1
    subst h2
    simp [List.enumFrom]
  | cons hd rest ih =>
    obtain ⟨h, line⟩ := hd
    intro i last os es l hm
    cases hr : render_line parse line with
    | error e => simp [muxLoop, hr] at hm
    | ok ftag =>
      obtain ⟨f, tag, ag⟩ := ftag
      by_cases hf : f = ""
      · simp only [muxLoop, hr, hf, if_pos] at hm
        obtain ⟨ho, he⟩ := ih (i + 1) last os es l hm
        refine ⟨?_, ?_⟩ <;> cases h <;>
          simp [List.enumFrom, List.filter_cons, List.filterMap_cons, renderOut,
            hr, hf, ho, he]
      · cases hm2 : muxLoop parse pre ts (i + 1) (muxUpdate ag last) rest with
        | error e => simp [muxLoop, hr, hf, hm2] at hm
        | ok oel =>
          obtain ⟨os', es', l'⟩ := oel
          obtain ⟨ho, he⟩ := ih (i + 1) (muxUpdate ag last) os' es' l' hm2
          cases h <;> simp [muxLoop, hr, hf, hm2] at hm <;>
            obtain ⟨h1, h2, h3⟩ := hm <;> subst h1 <;> subst h2 <;>
            refine ⟨?_, ?_⟩ <;>
            simp [List.enumFrom, List.filter_cons, List.filterMap_cons, renderOut,
              hr, hf, ho, he]

/-- Witness for C8 at a concrete two-line stdout session. -/
theorem C8_witness :
    muxOutAB = ((arrAB.enumFrom 0).filter (fun p => p.2.1 = Handle.stdout)).filterMap
      (fun p => renderOut parseAB none tsC p.1 p.2.2) :=
  (C8_per_handle_order_preserved parseAB none tsC arrAB 0 none muxOutAB []
    (some "hello") (by rfl)).1

/-- C4 (amended): the last-agent-message accumulator ends as the extracted
text of the last completed agent-message event whose trimmed text is
non-empty (an empty extracted text does not overwrite), or the initial value
if no such event occurred. -/
theorem C4_last_nonempty_agent_message (parse : String → Option Json)
    (pre : Option String) (ts : Nat → String) :
    ∀ (arrivals : List (Handle × String)) (i : Nat) (last : Option String)
      (os es : List String) (l : Option String),
      muxLoop parse pre ts i last arrivals = .ok (os, es, l) →
      l = lastOr (arrivals.filterMap (extractNonEmpty parse)) last := by
  intro arrivals
  induction arrivals with
  | nil =>
    intro i last os es l hm
    simp only [muxLoop, Except.ok.injEq, Prod.mk.injEq] at hm
    obtain ⟨h1, h2, h3⟩ := hm
    subst h3
    simp [lastOr]
  | cons hd rest ih =>
    obtain ⟨h, line⟩ := hd
    intro i last os es l hm
    cases hr : render_line parse line with
    | error e => simp [muxLoop, hr] at hm
    | ok ftag =>
      obtain ⟨f, tag, ag⟩ := ftag
      by_cases hf : f = ""
      · simp only [muxLoop, hr, hf, if_pos] at hm
        have := ih (i + 1) last os es l hm
        cases ag <;> simp [List.filterMap_cons, extractNonEmpty, hr, hf, this]
      · cases hm2 : muxLoop parse pre ts (i + 1) (muxUpdate ag last) rest with
        | error e => simp [muxLoop, hr, hf, hm2] at hm
        | ok oel =>
          obtain ⟨os', es', l'⟩ := oel
          have hihl := ih (i + 1) (muxUpdate ag last) os' es' l' hm2
          have hl : l = l' := by
            cases h <;> simp [muxLoop, hr, hf, hm2] at hm <;> tauto
          subst hl
          cases ag with
          | none =>
            simp [List.filterMap_cons, extractNonEmpty, hr, hf, muxUpdate] at hihl ⊢
            exact hihl
          | some s =>
            by_cases hs : s = ""
            · simp [List.filterMap_cons, extractNonEmpty, hr, hf, hs, muxUpdate]
                at hihl ⊢
              exact hihl
            · simp [List.filterMap_cons, extractNonEmpty, hr, hf, hs, muxUpdate,
                lastOr] at hihl ⊢
              exact hihl

/-- Counterexample to C4 as stated: in a session whose last completed
agent-message event has empty extracted text, `stream_process` returns the
earlier message `hello`, not the last event's (empty) extracted text. -/
theorem C4_counterexample :
    stream_process true parseAB none tsC arrAB 0 = .ok (.tuple 0 (some "hello"))
  ∧ specLastAgent parseAB arrAB = some ""
  ∧ (some "hello" : Option String) ≠ some "" := ⟨by rfl, by rfl, by decide⟩

/-- Witness for the amended C4 at the concrete session. -/
theorem C4_witness :
    (some "hello" : Option String) =
      lastOr (arrAB.filterMap (extractNonEmpty parseAB)) none :=
  C4_last_nonempty_agent_message parseAB none tsC arrAB 0 none muxOutAB []
    (some "hello") (by rfl)

theorem jsonEqStr_true {j : Json} {s : String} (h : jsonEqStr j s = true) :
    j = .str s := by
  cases j <;> simp [jsonEqStr] at h
  rw [h]

theorem getD_null_str {fields : List (String × Json)} {key : String} {s : String}
    (h : (jsonLookup fields key).getD .null = .str s) :
    jsonLookup fields key = some (.str s) := by
  cases hl : jsonLookup fields key with
  | none => rw [hl] at h; exact absurd h (by simp)
  | some v => rw [hl] at h; simpa using congrArg some h

theorem format_event_tag : ∀ (payload : Json) (f tag : String),
    format_event payload = .ok (f, tag) →
    tag = "default" ∨ tag = "reasoning" ∨ tag = "agent" := by
  intro payload f tag h
  unfold format_event at h
  repeat' split at h
  all_goals simp_all

theorem C2_part1 (parse : String → Option Json) (line : String) :
    ∀ f tag ag, render_line parse line = .ok (f, tag, ag) →
      (tag = "default" ∨ tag = "reasoning" ∨ tag = "agent")
    ∧ ∀ s, ag = some s → ∃ payload, parse (pyStrip line) = some payload
        ∧ isAgentMessageRecord payload = true ∧ agentTextOf payload = some s := by
  intro f tag ag h
  rw [render_line.eq_def] at h
  simp only [] at h
  split at h
  · simp only [Except.ok.injEq, Prod.mk.injEq] at h
    obtain ⟨-, h2, h3⟩ := h
    exact ⟨Or.inl h2.symm, fun s hs => absurd (h3 ▸ hs) (by simp)⟩
  · split at h
    · simp only [Except.ok.injEq, Prod.mk.injEq] at h
      obtain ⟨-, h2, h3⟩ := h
      exact ⟨Or.inl h2.symm, fun s hs => absurd (h3 ▸ hs) (by simp)⟩
    · rename_i payload hp
      split at h
      · exact absurd h (by simp)
      · rename_i ft hfe
        obtain ⟨ff, ftag⟩ := ft
        have htag := format_event_tag payload ff ftag hfe
        split at h
        · exact absurd h (by simp)
        · rename_i t hg1
          split at h
          · rename_i hic
            split at h
            · exact absurd h (by simp)
            · rename_i item hg2
              split at h
              · exact absurd h (by simp)
              · rename_i it hg3
                split at h
                · rename_i ham
                  split at h
                  · exact absurd h (by simp)
                  · rename_i text hte
                    simp only [Except.ok.injEq, Prod.mk.injEq] at h
                    obtain ⟨h1, h2, h3⟩ := h
                    refine ⟨h2 ▸ htag, ?_⟩
                    intro s hs
                    rw [← h3] at hs
                    obtain rfl : text = s := by simpa using hs
                    cases payload with
                    | str s2 => simp [pyGet] at hg1
                    | num n => simp [pyGet] at hg1
                    | bool b => simp [pyGet] at hg1
                    | null => simp [pyGet] at hg1
                    | arr l => simp [pyGet] at hg1
                    | obj fields =>
                      have ht : ((jsonLookup fields "type").getD Json.null) = t := by
                        simpa [pyGet] using hg1
                      have hts : t = Json.str "item.completed" := jsonEqStr_true hic
                      have hitem : ((jsonLookup fields "item").getD (Json.obj [])) = item := by
                        simpa [pyGet] using hg2
                      cases item with
                      | str s2 => simp [pyGet] at hg3
                      | num n => simp [pyGet] at hg3
                      | bool b => simp [pyGet] at hg3
                      | null => simp [pyGet] at hg3
                      | arr l => simp [pyGet] at hg3
                      | obj ifields =>
                        have hit : ((jsonLookup ifields "type").getD Json.null) = it := by
                          simpa [pyGet] using hg3
                        have hits : it = Json.str "agent_message" := jsonEqStr_true ham
                        refine ⟨.obj fields, hp, ?_, ?_⟩
                        · simp only [isAgentMessageRecord, ht, hts, hitem, hit, hits]
                          simp
                        · simp only [agentTextOf, hitem]
                          simp only [textOrEmptyStripped, pyGet] at hte
                          by_cases htr :
                              jsonTruthy ((jsonLookup ifields "text").getD Json.null) = true
                          · rw [if_pos htr] at hte
                            rw [if_pos htr]
                            cases hv : ((jsonLookup ifields "text").getD Json.null) with
                            | str s2 =>
                              rw [hv] at hte
                              simp only [Except.ok.injEq] at hte
                              simp [hte]
                            | num n => rw [hv] at hte; simp at hte
                            | bool b => rw [hv] at hte; simp at hte
                            | null => rw [hv] at hte; simp at hte
                            | arr l => rw [hv] at hte; simp at hte
                            | obj l2 => rw [hv] at hte; simp at hte
                          · rw [if_neg htr] at hte
                            rw [if_neg htr]
                            simp only [Except.ok.injEq] at hte
                            simp [hte]
                · simp only [Except.ok.injEq, Prod.mk.injEq] at h
                  obtain ⟨-, h2, h3⟩ := h
                  exact ⟨h2 ▸ htag, fun s hs => absurd (h3 ▸ hs) (by simp)⟩
          · simp only [Except.ok.injEq, Prod.mk.injEq] at h
            obtain ⟨-, h2, h3⟩ := h
            exact ⟨h2 ▸ htag, fun s hs => absurd (h3 ▸ hs) (by simp)⟩

theorem render_line_eval (parse : String → Option Json) (line : String)
    (payload : Json) (hne : pyStrip line ≠ "")
    (hp : parse (pyStrip line) = some payload) (ff ftag : String)
    (hfe : format_event payload = .ok (ff, ftag)) (t : Json)
    (hg1 : pyGet payload "type" .null = .ok t)
    (hic : jsonEqStr t "item.completed" = true) (item : Json)
    (hg2 : pyGet payload "item" (.obj []) = .ok item) (it : Json)
    (hg3 : pyGet item "type" .null = .ok it)
    (ham : jsonEqStr it "agent_message" = true) (text : String)
    (hte : textOrEmptyStripped item = .ok text) :
    render_line parse line = .ok (ff, ftag, some text) := by
  rw [render_line.eq_def]
  simp only [if_neg hne, hp, hfe, hg1, hic, hg2, hg3, ham, hte]
  simp

theorem format_event_agent (fields ifields : List (String × Json))
    (hl : jsonLookup fields "type" = some (.str "item.completed"))
    (hitem : (jsonLookup fields "item").getD (.obj []) = .obj ifields)
    (hlt : jsonLookup ifields "type" = some (.str "agent_message"))
    (text : String)
    (hte : textOrEmptyStripped (.obj ifields) = .ok text) :
    format_event (.obj fields) =
      .ok (if text = "" then "[agent]" else "[agent] " ++ text, "agent") := by
  simp only [format_event, pyGet, hl, Option.getD_some, hitem, hlt, jsonEqStr, hte]
  by_cases ht : text = "" <;> simp [ht]

theorem C2_part2 (parse : String → Option Json) (line : String) :
    ∀ payload s, pyStrip line ≠ "" → parse (pyStrip line) = some payload →
      isAgentMessageRecord payload = true → agentTextOf payload = some s →
      render_line parse line =
        .ok (if s = "" then "[agent]" else "[agent] " ++ s, "agent", some s) := by
  intro payload s hne hp hrec htext
  cases payload with
  | str s2 => simp [isAgentMessageRecord] at hrec
  | num n => simp [isAgentMessageRecord] at hrec
  | bool b => simp [isAgentMessageRecord] at hrec
  | null => simp [isAgentMessageRecord] at hrec
  | arr l => simp [isAgentMessageRecord] at hrec
  | obj fields =>
    simp only [isAgentMessageRecord] at hrec
    cases hty : (jsonLookup fields "type").getD Json.null with
    | num n => rw [hty] at hrec; simp at hrec
    | bool b => rw [hty] at hrec; simp at hrec
    | null => rw [hty] at hrec; simp at hrec
    | arr l => rw [hty] at hrec; simp at hrec
    | obj l2 => rw [hty] at hrec; simp at hrec
    | str t =>
      rw [hty] at hrec
      simp at hrec
      obtain ⟨rfl, hrec2⟩ := hrec
      cases hitem : (jsonLookup fields "item").getD (Json.obj []) with
      | str s2 => rw [hitem] at hrec2; simp at hrec2
      | num n => rw [hitem] at hrec2; simp at hrec2
      | bool b => rw [hitem] at hrec2; simp at hrec2
      | null => rw [hitem] at hrec2; simp at hrec2
      | arr l => rw [hitem] at hrec2; simp at hrec2
      | obj ifields =>
        rw [hitem] at hrec2
        simp at hrec2
        cases hity : (jsonLookup ifields "type").getD Json.null with
        | num n => rw [hity] at hrec2; simp at hrec2
        | bool b => rw [hity] at hrec2; simp at hrec2
        | null => rw [hity] at hrec2; simp at hrec2
        | arr l => rw [hity] at hrec2; simp at hrec2
        | obj l2 => rw [hity] at hrec2; simp at hrec2
        | str it =>
          rw [hity] at hrec2
          simp at hrec2
          subst hrec2
          simp only [agentTextOf, hitem] at htext
          by_cases htr : jsonTruthy ((jsonLookup ifields "text").getD Json.null) = true
          · rw [if_pos htr] at htext
            cases hv : (jsonLookup ifields "text").getD Json.null with
            | num n => rw [hv] at htext; simp at htext
            | bool b => rw [hv] at htext; simp at htext
            | null => rw [hv] at htext; simp at htext
            | arr l => rw [hv] at htext; simp at htext
            | obj l2 => rw [hv] at htext; simp at htext
            | str raw =>
              rw [hv] at htext
              have hs : pyStrip raw = s := by simpa using htext
              have htr2 : jsonTruthy (Json.str raw) = true := hv ▸ htr
              have hte : textOrEmptyStripped (.obj ifields) = .ok s := by
                simp [textOrEmptyStripped, pyGet, hv, htr2, hs]
              exact render_line_eval parse line (.obj fields) hne hp _ _
                (format_event_agent fields ifields (getD_null_str hty) hitem
                  (getD_null_str hity) s hte)
                (.str "item.completed") (by simp [pyGet, hty]) (by simp [jsonEqStr])
                (.obj ifields) (by simp [pyGet, hitem]) (.str "agent_message")
                (by simp [pyGet, hity]) (by simp [jsonEqStr]) s hte
          · rw [if_neg htr] at htext
            have hs : "" = s := by simpa using htext
            have hte : textOrEmptyStripped (.obj ifields) = .ok s := by
              simp [textOrEmptyStripped, pyGet, htr, ← hs]
            exact render_line_eval parse line (.obj fields) hne hp _ _
              (format_event_agent fields ifields (getD_null_str hty) hitem
                (getD_null_str hity) s hte)
              (.str "item.completed") (by simp [pyGet, hty]) (by simp [jsonEqStr])
              (.obj ifields) (by simp [pyGet, hitem]) (.str "agent_message")
              (by simp [pyGet, hity]) (by simp [jsonEqStr]) s hte

/-- C2 (amended): whenever `render_line` returns (rather than raising on a
payload whose structure breaks attribute access), the tag is one of
`default`, `reasoning`, `agent` (the literal `agent` being the agent-message
tag); an extracted summary is produced only for a completed agent-message
record; and every valid completed agent-message record yields tag `agent`
with the trimmed text (possibly empty) as summary. -/
theorem C2_tag_set_and_agent_extraction :
    ∀ (parse : String → Option Json) (line : String),
      (∀ f tag ag, render_line parse line = .ok (f, tag, ag) →
          (tag = "default" ∨ tag = "reasoning" ∨ tag = "agent")
        ∧ ∀ s, ag = some s → ∃ payload, parse (pyStrip line) = some payload
            ∧ isAgentMessageRecord payload = true ∧ agentTextOf payload = some s)
    ∧ (∀ payload s, pyStrip line ≠ "" → parse (pyStrip line) = some payload →
        isAgentMessageRecord payload = true → agentTextOf payload = some s →
        render_line parse line =
          .ok (if s = "" then "[agent]" else "[agent] " ++ s, "agent", some s)) :=
  fun parse line => ⟨C2_part1 parse line, C2_part2 parse line⟩

/-- Counterexample to C2 as stated: the line `[1]` is valid JSON but not an
object, so the renderer raises (`payload.get` on a list) instead of
producing any tag. -/
theorem C2_counterexample : render_line parseArr "[1]" = .error () := by rfl

/-- Witness for the amended C2 at a concrete completed agent-message
record. -/
theorem C2_witness :
    render_line parseAB "A" =
      .ok (if "hello" = "" then "[agent]" else "[agent] " ++ "hello", "agent",
        some "hello") :=
  (C2_tag_set_and_agent_extraction parseAB "A").2 payloadA "hello"
    (by decide) (by rfl) (by rfl) (by rfl)

end Dispatcher
